import Mathlib

/-!
Verification of the registry-fetch-and-cache component of the hostathome CLI
(`internal/registry/registry.go`), shallowly embedded in Lean 4.

The embedding models the external world (disk cache files, remote HTTP
behaviour, best-effort write outcomes) as an explicit `World` record, and
each Go function as a pure Lean function threading that state and recording
the observable effects (network calls, cache-file reads) needed to state the
properties in the specification.
-/

namespace Registry

/-- Raw bytes of a fetched or cached payload (`[]byte` in Go). -/
abbrev Bytes := List Nat

/-- `cacheTTL = 1 * time.Hour`, measured in seconds. -/
def cacheTTL : Nat := 3600

/-- A cache file on disk: its contents and its modification time
(seconds since some epoch), as observed via `os.Stat` / `os.ReadFile`. -/
structure CacheEntry where
  data : Bytes
  modTime : Nat
deriving DecidableEq

/-- Behaviour of the remote when a given resource is requested:
either the HTTP GET fails with no response at all (transport error),
or a response with a status code and body arrives. -/
inductive HTTPResult where
  | transportError
  | response (status : Nat) (body : Bytes)
deriving DecidableEq

/-- Errors surfaced by `fetchWithCache` / `fetchGameIndex`. -/
inductive FetchError where
  /-- `"game not found"` on a 404 response. -/
  | notFound
  /-- the transport error returned by `http.Client.Get`. -/
  | transport
  /-- `"failed to fetch: %s"` for a non-200, non-404 status. -/
  | badStatus (status : Nat)
  /-- `io.ReadAll(resp.Body)` failing. -/
  | bodyRead
  /-- `yaml.Unmarshal` failing on the fetched index payload. -/
  | parseYaml
deriving DecidableEq

/-- Association-list lookup (first binding wins), modelling a Go map read
and the presence test `os.Stat`. -/
def lookupA {α : Type} (l : List (String × α)) (k : String) : Option α :=
  match l with
  | [] => none
  | (k', v) :: rest => if k' = k then some v else lookupA rest k

/-- The external state a single CLI invocation runs against. -/
structure World where
  /-- current time in seconds (`time.Now`), for `time.Since(modTime)`. -/
  now : Nat
  /-- on-disk cache directory contents, keyed by file name
  (`<name>.yaml` per game, `index.json` for the index). -/
  cacheFiles : List (String × CacheEntry)
  /-- remote behaviour keyed by resource (`games/<name>` per game,
  `index.yaml` for the index). -/
  remotes : List (String × HTTPResult)
  /-- `config.GetCacheDir()` returned a non-empty path. -/
  cacheDirOk : Bool
  /-- `os.MkdirAll` on the cache directory succeeds. -/
  mkdirOk : Bool
  /-- `os.WriteFile` of the cache file succeeds. -/
  writeOk : Bool
  /-- `io.ReadAll(resp.Body)` succeeds. -/
  bodyReadOk : Bool
deriving DecidableEq

deriving instance DecidableEq for Except

/-- Result of one `fetchWithCache` run: the returned value, the world after
any best-effort cache write, and the observable effect counts. -/
structure FetchOut where
  result : Except FetchError Bytes
  world : World
  /-- number of HTTP GETs issued. -/
  netCalls : Nat
  /-- number of `os.ReadFile` calls on the cache file. -/
  cacheReads : Nat
deriving DecidableEq

/-- The remote behaviour for a resource key; a key the world does not
describe behaves like an unreachable remote. -/
def remoteOf (w : World) (key : String) : HTTPResult :=
  (lookupA w.remotes key).getD .transportError

/-- The best-effort cache persist of `fetchWithCache` (registry.go:125-136):
`getCacheDir` empty, `MkdirAll` failing, or `WriteFile` failing all leave the
disk unchanged and are never surfaced. -/
def cacheWriteStep (w : World) (file : String) (data : Bytes) : World :=
  if w.cacheDirOk then
    if w.mkdirOk then
      if w.writeOk then
        { w with cacheFiles := (file, ⟨data, w.now⟩) :: w.cacheFiles }
      else w
    else w
  else w

/-- The network half of `fetchWithCache` (registry.go:98-136), reached when
the cache file is absent or stale: GET the resource, falling back to the
cache file on transport failure or non-200 / non-404 status, failing with
`notFound` on 404, and persisting (best-effort) on 200. -/
def fetchRemote (w : World) (name : String) : FetchOut :=
  let cacheFile := name ++ ".yaml"
  match remoteOf w ("games/" ++ name) with
  | .transportError =>
    match lookupA w.cacheFiles cacheFile with
    | some e => { result := .ok e.data, world := w, netCalls := 1, cacheReads := 1 }
    | none => { result := .error .transport, world := w, netCalls := 1, cacheReads := 0 }
  | .response status body =>
    if status = 404 then
      { result := .error .notFound, world := w, netCalls := 1, cacheReads := 0 }
    else if status ≠ 200 then
      match lookupA w.cacheFiles cacheFile with
      | some e => { result := .ok e.data, world := w, netCalls := 1, cacheReads := 1 }
      | none => { result := .error (.badStatus status), world := w, netCalls := 1, cacheReads := 0 }
    else if !w.bodyReadOk then
      { result := .error .bodyRead, world := w, netCalls := 1, cacheReads := 0 }
    else
      { result := .ok body, world := cacheWriteStep w cacheFile body, netCalls := 1, cacheReads := 0 }

/-- `fetchWithCache` (registry.go:87-137): if the cache file exists and
`time.Since(modTime) < cacheTTL`, return its contents with no network call;
otherwise fetch from the remote. `now - modTime` is Nat subtraction, which
matches Go: a modification time in the future gives a negative (here zero)
age, counted as fresh. -/
def fetchWithCache (w : World) (name : String) : FetchOut :=
  match lookupA w.cacheFiles (name ++ ".yaml") with
  | some e =>
    if w.now - e.modTime < cacheTTL then
      { result := .ok e.data, world := w, netCalls := 0, cacheReads := 1 }
    else fetchRemote w name
  | none => fetchRemote w name

/-- A game definition (`registry/types.go`), as far as the cache layer
observes it: an opaque parsed record. -/
structure Game where
  name : String
  displayName : String
  description : String
  image : String
deriving DecidableEq

/-- Errors surfaced by `GetGame`: the wrapped fetch error
(`"game '%s' not found in registry: %w"`) or a `yaml.Unmarshal` failure
(`"failed to parse game definition: %w"`). -/
inductive GameError where
  | notFoundInRegistry (name : String) (e : FetchError)
  | parseFailed
deriving DecidableEq

/-- The in-process memoization map `gameCache` (registry.go:31). -/
abbrev GameCache := List (String × Game)

/-- Result of one `GetGame` call. -/
structure GameOut where
  result : Except GameError Game
  gameCache : GameCache
  world : World
  netCalls : Nat
  cacheReads : Nat
deriving DecidableEq

/-- `GetGame` (registry.go:67-84): return the memoized definition when the
in-process map holds the name (no freshness check, no I/O at all); otherwise
run `fetchWithCache`, parse the bytes (`yaml.Unmarshal`, abstracted as the
`parse` argument), memoize and return. -/
def GetGame (parse : Bytes → Option Game) (gc : GameCache) (w : World)
    (name : String) : GameOut :=
  match lookupA gc name with
  | some game =>
    { result := .ok game, gameCache := gc, world := w, netCalls := 0, cacheReads := 0 }
  | none =>
    match fetchWithCache w name with
    | ⟨.error e, w', nc, cr⟩ =>
      { result := .error (.notFoundInRegistry name e), gameCache := gc,
        world := w', netCalls := nc, cacheReads := cr }
    | ⟨.ok data, w', nc, cr⟩ =>
      match parse data with
      | none =>
        { result := .error .parseFailed, gameCache := gc,
          world := w', netCalls := nc, cacheReads := cr }
      | some game =>
        { result := .ok game, gameCache := (name, game) :: gc,
          world := w', netCalls := nc, cacheReads := cr }

/-- The external (de)serializers `fetchGameIndex` relies on:
`json.Unmarshal` into `[]string` for the cached index, `yaml.Unmarshal` of
the remote `index.yaml` into its `games` list, and `json.Marshal` for the
normalized cache write (which cannot fail on a string list). -/
structure IndexCodec where
  jsonDec : Bytes → Option (List String)
  yamlDec : Bytes → Option (List String)
  jsonEnc : List String → Bytes

/-- Result of one `fetchGameIndex` call. -/
structure IndexOut where
  result : Except FetchError (List String)
  world : World
  netCalls : Nat

/-- The fresh-cache branch of `fetchGameIndex` (registry.go:162-171): the
cached index is served only when the file exists, is fresh, JSON-decodes,
and decodes to a non-empty list. -/
def freshIndexHit (codec : IndexCodec) (w : World) : Option (List String) :=
  match lookupA w.cacheFiles "index.json" with
  | some e =>
    if w.now - e.modTime < cacheTTL then
      match codec.jsonDec e.data with
      | some index => if index.length > 0 then some index else none
      | none => none
    else none
  | none => none

/-- The fallback read of the cached index used on transport failure and on
non-200 status (registry.go:177-183 and 189-195): the file must exist, be
non-empty, JSON-decode, and decode to a non-empty list. -/
def staleIndexOf (codec : IndexCodec) (entry : Option CacheEntry) : Option (List String) :=
  match entry with
  | some e =>
    if e.data.length > 0 then
      match codec.jsonDec e.data with
      | some index => if index.length > 0 then some index else none
      | none => none
    else none
  | none => none

/-- The best-effort normalized cache write of `fetchGameIndex`
(registry.go:211-218). -/
def indexCacheWrite (codec : IndexCodec) (w : World) (games : List String) : World :=
  if w.cacheDirOk then
    if w.mkdirOk then
      if w.writeOk then
        { w with cacheFiles := ("index.json", ⟨codec.jsonEnc games, w.now⟩) :: w.cacheFiles }
      else w
    else w
  else w

/-- `fetchGameIndex` (registry.go:158-221): serve a fresh, well-formed,
non-empty cached index; otherwise GET `index.yaml`, falling back to a
usable cached index on transport failure or any non-200 status (404
included — there is no special 404 case here), and on 200 parse the YAML
`games` list and persist it (best-effort) as normalized JSON. -/
def fetchGameIndex (codec : IndexCodec) (w : World) : IndexOut :=
  match freshIndexHit codec w with
  | some index => { result := .ok index, world := w, netCalls := 0 }
  | none =>
    match remoteOf w "index.yaml" with
    | .transportError =>
      match staleIndexOf codec (lookupA w.cacheFiles "index.json") with
      | some index => { result := .ok index, world := w, netCalls := 1 }
      | none => { result := .error .transport, world := w, netCalls := 1 }
    | .response status body =>
      if status ≠ 200 then
        match staleIndexOf codec (lookupA w.cacheFiles "index.json") with
        | some index => { result := .ok index, world := w, netCalls := 1 }
        | none => { result := .error (.badStatus status), world := w, netCalls := 1 }
      else if !w.bodyReadOk then
        { result := .error .bodyRead, world := w, netCalls := 1 }
      else
        match codec.yamlDec body with
        | none => { result := .error .parseYaml, world := w, netCalls := 1 }
        | some games =>
          { result := .ok games, world := indexCacheWrite codec w games, netCalls := 1 }

/-- The resolution loop of `ListGames` (registry.go:147-153): resolve each
index name in order, skipping names whose resolution fails, threading the
memoization map and the world through the sequence. -/
def resolveLoop (parse : Bytes → Option Game) (gc : GameCache) (w : World) :
    List String → List Game × GameCache × World
  | [] => ([], gc, w)
  | n :: rest =>
    match GetGame parse gc w n with
    | ⟨.ok game, gc', w', _, _⟩ =>
      (game :: (resolveLoop parse gc' w' rest).1, (resolveLoop parse gc' w' rest).2)
    | ⟨.error _, gc', w', _, _⟩ => resolveLoop parse gc' w' rest

/-- Result of one `ListGames` call. -/
structure ListOut where
  result : Except FetchError (List Game)
  gameCache : GameCache
  world : World

/-- `ListGames` (registry.go:140-155): fetch the index, then resolve each
name, skipping failures. An index-fetch failure is propagated. -/
def ListGames (codec : IndexCodec) (parse : Bytes → Option Game)
    (gc : GameCache) (w : World) : ListOut :=
  match fetchGameIndex codec w with
  | ⟨.error e, w', _⟩ => { result := .error e, gameCache := gc, world := w' }
  | ⟨.ok names, w', _⟩ =>
    { result := .ok (resolveLoop parse gc w' names).1,
      gameCache := (resolveLoop parse gc w' names).2.1,
      world := (resolveLoop parse gc w' names).2.2 }

/-- A character accepted by the game-name pattern `^[a-zA-Z0-9_-]+$`
(registry.go:41). -/
def isGameNameChar (c : Char) : Bool :=
  ('a' ≤ c && c ≤ 'z') || ('A' ≤ c && c ≤ 'Z') || ('0' ≤ c && c ≤ '9') ||
    c = '_' || c = '-'

/-- `strings.Contains(s, "..")` on the character list of `s`. -/
def containsDotDot : List Char → Bool
  | [] => false
  | c :: rest =>
    match rest with
    | c' :: _ => (c = '.' && c' = '.') || containsDotDot rest
    | [] => false

/-- `strings.HasPrefix(s, <one-character prefix>)`: the first character of
`s` is `c`. -/
def headIs (s : String) (c : Char) : Bool :=
  match s.data with
  | [] => false
  | c' :: _ => c' = c

/-- `validateGameName` (registry.go:34-48): reject the empty name, names
longer than 63 characters, names with a character outside `[a-zA-Z0-9_-]`,
and (redundantly, after the pattern check) names containing `..` or
starting with `/` or `.`. -/
def validateGameName (gameName : String) : Except String Unit :=
  if gameName = "" then .error "game name cannot be empty"
  else if gameName.length > 63 then .error "game name too long (max 63 chars)"
  else if !(gameName.data.all isGameNameChar) then
    .error "game name contains invalid characters (only alphanumeric, hyphen, underscore allowed)"
  else if containsDotDot gameName.data || headIs gameName '/' || headIs gameName '.' then
    .error "game name cannot contain path traversal sequences"
  else .ok ()

/-- An externally visible step taken by `CopyDefaultConfig`: a directory
creation, a connection to the container engine, a file-existence probe, or
a file extraction from the image. -/
inductive CopyStep where
  | mkdirAll (path : String)
  | dockerConnect
  | statFile (path : String)
  | extractFile (image : String) (src : String) (dest : String)
deriving DecidableEq

/-- Outcomes of the external operations `CopyDefaultConfig` performs after
validation. -/
structure CopyEnv where
  /-- `os.MkdirAll(configDir, 0755)` succeeds. -/
  mkdirOk : Bool
  /-- the Docker client can be constructed. -/
  dockerOk : Bool
  /-- `configs/config.yaml` already exists. -/
  configYamlExists : Bool
  /-- extracting `/defaults/config.yaml` succeeds. -/
  extractConfigOk : Bool
  /-- `configs/mods.yaml` already exists. -/
  modsYamlExists : Bool
  /-- extracting `/defaults/mods.yaml` succeeds (its failure is ignored). -/
  extractModsOk : Bool
deriving DecidableEq

/-- `CopyDefaultConfig` (registry.go:224-264): validate the game name first
and fail with `"invalid game name: %w"` before any other step; then create
`./<name>-server/configs`, connect to the engine, and extract the default
`config.yaml` (required) and `mods.yaml` (optional) when absent. The
returned trace records the externally visible steps in order. -/
def CopyDefaultConfig (gameName : String) (image : String) (env : CopyEnv) :
    Except String Unit × List CopyStep :=
  match validateGameName gameName with
  | .error e => (.error ("invalid game name: " ++ e), [])
  | .ok _ =>
    let serverDir := "./" ++ gameName ++ "-server"
    let configDir := serverDir ++ "/configs"
    let steps1 := [CopyStep.mkdirAll configDir]
    if !env.mkdirOk then (.error "failed to create config directory", steps1)
    else
      let steps2 := steps1 ++ [CopyStep.dockerConnect]
      if !env.dockerOk then (.error "docker not available", steps2)
      else
        let configPath := configDir ++ "/config.yaml"
        let steps3 := steps2 ++ [CopyStep.statFile configPath]
        if !env.configYamlExists && !env.extractConfigOk then
          (.error "failed to extract config",
            steps3 ++ [CopyStep.extractFile image "/defaults/config.yaml" configPath])
        else
          let steps4 :=
            if env.configYamlExists then steps3
            else steps3 ++ [CopyStep.extractFile image "/defaults/config.yaml" configPath]
          let modsPath := configDir ++ "/mods.yaml"
          let steps5 := steps4 ++ [CopyStep.statFile modsPath]
          if env.modsYamlExists then (.ok (), steps5)
          else (.ok (), steps5 ++ [CopyStep.extractFile image "/defaults/mods.yaml" modsPath])

/-- The cache file named `file` is absent or stale in `w`: exactly the
condition under which `fetchWithCache` / `fetchGameIndex` go to the
network (the fresh branch is not taken). -/
def staleOrAbsent (w : World) (file : String) : Bool :=
  match lookupA w.cacheFiles file with
  | some e => decide (cacheTTL ≤ w.now - e.modTime)
  | none => true

/-- A sample world: a cache file for game `g` written at time 50, observed
at time 100 (age 50 s, fresh), remote unreachable. -/
def sampleFreshWorld : World :=
  { now := 100, cacheFiles := [("g.yaml", ⟨[1, 2], 50⟩)], remotes := [],
    cacheDirOk := true, mkdirOk := true, writeOk := true, bodyReadOk := true }

/-- A sample world: a stale cache file for game `g` (age 7200 s) and a
remote that answers 404 for `g`. -/
def sampleStale404World : World :=
  { now := 7200, cacheFiles := [("g.yaml", ⟨[1, 2], 0⟩)], remotes := [("games/g", .response 404 [])],
    cacheDirOk := true, mkdirOk := true, writeOk := true, bodyReadOk := true }

/-- A sample world: a stale cache file for game `g` and a remote answering
500 for `g`. -/
def sampleStale500World : World :=
  { now := 7200, cacheFiles := [("g.yaml", ⟨[1, 2], 0⟩)], remotes := [("games/g", .response 500 [9])],
    cacheDirOk := true, mkdirOk := true, writeOk := true, bodyReadOk := true }

/-- A sample world: no cache file, remote answering 200 with body `[5, 6]`
for `g`, and a cache directory whose writes fail. -/
def sampleWriteFailWorld : World :=
  { now := 100, cacheFiles := [], remotes := [("games/g", .response 200 [5, 6])],
    cacheDirOk := true, mkdirOk := true, writeOk := false, bodyReadOk := true }

/-- A sample world: no cache file, remote answering 200 with body `[5, 6]`
for `g`, all cache writes succeeding. -/
def sampleWriteOkWorld : World :=
  { now := 100, cacheFiles := [], remotes := [("games/g", .response 200 [5, 6])],
    cacheDirOk := true, mkdirOk := true, writeOk := true, bodyReadOk := true }

/-- A sample definition parser: bytes `[5, 6]` decode to `sampleGame`. -/
def sampleGame : Game := ⟨"g", "G", "", "img"⟩

/-- See `sampleGame`. -/
def sampleParse : Bytes → Option Game :=
  fun b => if b = [5, 6] then some sampleGame else none

/-- A world with no cache files, no reachable remote, and every external
operation failing. -/
def deadWorld : World :=
  { now := 0, cacheFiles := [], remotes := [], cacheDirOk := false,
    mkdirOk := false, writeOk := false, bodyReadOk := false }

/-- Specification-side reading of the listing loop: the definitions of
exactly those index names whose individual resolution succeeds, resolved in
index order with the memo map and world threaded through. -/
def resolvedGames (parse : Bytes → Option Game) (gc : GameCache) (w : World) :
    List String → List Game
  | [] => []
  | n :: rest =>
    match GetGame parse gc w n with
    | ⟨.ok game, gc', w', _, _⟩ => game :: resolvedGames parse gc' w' rest
    | ⟨.error _, gc', w', _, _⟩ => resolvedGames parse gc' w' rest

/-- A sample index codec whose cached bytes `[9]` JSON-decode to the empty
list and whose remote body `[4]` YAML-decodes to the empty list. -/
def emptyIndexCodec : IndexCodec :=
  { jsonDec := fun b => if b = [9] then some [] else none,
    yamlDec := fun b => if b = [4] then some [] else none,
    jsonEnc := fun _ => [] }

/-- A sample world with a fresh cached index whose contents decode to the
empty list, and an unreachable remote. -/
def freshEmptyIndexWorld : World :=
  { now := 100, cacheFiles := [("index.json", ⟨[9], 50⟩)], remotes := [],
    cacheDirOk := true, mkdirOk := true, writeOk := true, bodyReadOk := true }

/-- A sample world with no cached index and a remote `index.yaml` whose
body decodes to the empty list. -/
def emptyRemoteIndexWorld : World :=
  { now := 100, cacheFiles := [], remotes := [("index.yaml", .response 200 [4])],
    cacheDirOk := true, mkdirOk := true, writeOk := true, bodyReadOk := true }

/-- A sample index codec whose cached bytes `[7]` JSON-decode to the
non-empty list `["a"]`. -/
def staleIndexCodec : IndexCodec :=
  { jsonDec := fun b => if b = [7] then some ["a"] else none,
    yamlDec := fun _ => none,
    jsonEnc := fun _ => [] }

/-- A sample world with a stale (age 7200 s) but well-formed cached index
and a remote answering 404 for `index.yaml`. -/
def staleIndex404World : World :=
  { now := 7200, cacheFiles := [("index.json", ⟨[7], 0⟩)],
    remotes := [("index.yaml", .response 404 [])],
    cacheDirOk := true, mkdirOk := true, writeOk := true, bodyReadOk := true }

/-- A sample index codec: bytes `[3]` decode (as cached JSON) to
`["a", "b", "c"]`. -/
def sampleIndexCodec : IndexCodec :=
  { jsonDec := fun b => if b = [3] then some ["a", "b", "c"] else none,
    yamlDec := fun _ => none,
    jsonEnc := fun _ => [] }

/-- A sample world for listing: a fresh cached index `["a", "b", "c"]`,
remotes serving `a` and `c` with parseable bodies, and `b` unreachable with
no cache file. -/
def sampleListWorld : World :=
  { now := 100,
    cacheFiles := [("index.json", ⟨[3], 50⟩)],
    remotes := [("games/a", .response 200 [5, 6]), ("games/c", .response 200 [5, 6])],
    cacheDirOk := true, mkdirOk := true, writeOk := true, bodyReadOk := true }

/-- The exact paths a `CopyDefaultConfig` step may touch for game name
`s`: the config directory `./<s>-server/configs` and the two config files
under it — every path stays under `./<s>-server`. -/
def stepUnderServerDir (s : String) : CopyStep → Prop
  | .mkdirAll p => p = "./" ++ s ++ "-server" ++ "/configs"
  | .dockerConnect => True
  | .statFile p =>
      p = "./" ++ s ++ "-server" ++ "/configs" ++ "/config.yaml" ∨
      p = "./" ++ s ++ "-server" ++ "/configs" ++ "/mods.yaml"
  | .extractFile _ _ dest =>
      dest = "./" ++ s ++ "-server" ++ "/configs" ++ "/config.yaml" ∨
      dest = "./" ++ s ++ "-server" ++ "/configs" ++ "/mods.yaml"

/-- A sample environment where every external step of `CopyDefaultConfig`
succeeds and neither config file pre-exists. -/
def sampleCopyEnv : CopyEnv :=
  { mkdirOk := true, dockerOk := true, configYamlExists := false,
    extractConfigOk := true, modsYamlExists := false, extractModsOk := true }

end Registry

namespace Registry

/-- When the cache file for `name` is absent or stale, `fetchWithCache`
reduces to the network half `fetchRemote`. -/
theorem fetchWithCache_stale (w : World) (name : String)
    (hstale : staleOrAbsent w (name ++ ".yaml") = true) :
    fetchWithCache w name = fetchRemote w name := by
  unfold fetchWithCache
  cases hc : lookupA w.cacheFiles (name ++ ".yaml") with
  | none => rfl
  | some e =>
    simp only [staleOrAbsent, hc, decide_eq_true_eq] at hstale
    simp [Nat.not_lt.mpr hstale]

/-- On 404 the network half fails with `notFound` and never reads the
cache file. -/
theorem fetchRemote_404 (w : World) (name : String) (body : Bytes)
    (hr : remoteOf w ("games/" ++ name) = .response 404 body) :
    fetchRemote w name =
      { result := .error .notFound, world := w, netCalls := 1, cacheReads := 0 } := by
  unfold fetchRemote
  rw [hr]
  simp

/-- C3: if a cache file for the key exists and its age `now − modTime` is
strictly below the one-hour freshness window, `fetchWithCache` returns the
cache file's contents directly, with zero network calls. -/
theorem fetchWithCache_fresh_serves_cache_without_network
    (w : World) (name : String) (e : CacheEntry)
    (hc : lookupA w.cacheFiles (name ++ ".yaml") = some e)
    (hfresh : w.now - e.modTime < cacheTTL) :
    fetchWithCache w name =
      { result := .ok e.data, world := w, netCalls := 0, cacheReads := 1 } := by
  unfold fetchWithCache
  rw [hc]
  simp [hfresh]

/-- Witness for C3 at a concrete world: cache written at 50, read at 100. -/
theorem fetchWithCache_fresh_serves_cache_without_network_witness :
    fetchWithCache sampleFreshWorld "g" =
      { result := .ok [1, 2], world := sampleFreshWorld, netCalls := 0, cacheReads := 1 } :=
  fetchWithCache_fresh_serves_cache_without_network sampleFreshWorld "g"
    ⟨[1, 2], 50⟩ (by decide) (by decide)

/-- C4: on transport failure or any non-200, non-404 status,
`fetchWithCache` returns the contents of an existing cache file (fresh or
stale) when one exists, and otherwise propagates the transport error,
respectively an error naming the response status. -/
theorem fetchWithCache_failure_falls_back_to_cache
    (w : World) (name : String) (r : HTTPResult)
    (hr : remoteOf w ("games/" ++ name) = r)
    (hfail : r = .transportError ∨ ∃ s b, r = .response s b ∧ s ≠ 200 ∧ s ≠ 404) :
    (fetchWithCache w name).result =
      match lookupA w.cacheFiles (name ++ ".yaml") with
      | some e => .ok e.data
      | none =>
        match r with
        | .transportError => .error .transport
        | .response s _ => .error (.badStatus s) := by
  unfold fetchWithCache fetchRemote
  cases hc : lookupA w.cacheFiles (name ++ ".yaml") with
  | some e =>
    by_cases hfr : w.now - e.modTime < cacheTTL
    · simp [hfr]
    · rcases hfail with h | ⟨s, b, h, h200, h404⟩
      · subst h; simp [hfr, hr, hc]
      · subst h; simp [hfr, hr, hc, h200, h404]
  | none =>
    rcases hfail with h | ⟨s, b, h, h200, h404⟩
    · subst h; simp [hr, hc]
    · subst h; simp [hr, hc, h200, h404]

/-- Witness for C4: stale cache served on a 500 response, transport error
propagated when no cache exists. -/
theorem fetchWithCache_failure_falls_back_to_cache_witness :
    (fetchWithCache sampleStale500World "g").result = .ok [1, 2] :=
  fetchWithCache_failure_falls_back_to_cache sampleStale500World "g"
    (.response 500 [9]) (by decide)
    (.inr ⟨500, [9], rfl, by decide, by decide⟩)

/-- C1: when the memo map does not hold `name`, the cache file is absent or
stale (so the remote is actually consulted), and the remote answers 404,
`GetGame` fails with the wrapped `notFound` error: the cache file is never
read (`cacheReads = 0`), no cached bytes are returned, and the world is
unchanged — regardless of what the (stale) cache file holds. -/
theorem getGame_404_fails_notFound_ignoring_cache
    (parse : Bytes → Option Game) (gc : GameCache) (w : World)
    (name : String) (body : Bytes)
    (hmem : lookupA gc name = none)
    (hstale : staleOrAbsent w (name ++ ".yaml") = true)
    (hr : remoteOf w ("games/" ++ name) = .response 404 body) :
    GetGame parse gc w name =
      { result := .error (.notFoundInRegistry name .notFound), gameCache := gc,
        world := w, netCalls := 1, cacheReads := 0 } := by
  unfold GetGame
  rw [hmem, fetchWithCache_stale w name hstale, fetchRemote_404 w name body hr]

/-- Witness for C1: a valid stale cache file for `g` exists, the remote
answers 404, and `GetGame` still fails with `notFound`. -/
theorem getGame_404_fails_notFound_ignoring_cache_witness :
    GetGame (fun _ => none) [] sampleStale404World "g" =
      { result := .error (.notFoundInRegistry "g" .notFound), gameCache := [],
        world := sampleStale404World, netCalls := 1, cacheReads := 0 } :=
  getGame_404_fails_notFound_ignoring_cache (fun _ => none) [] sampleStale404World
    "g" [] rfl (by decide) (by decide)

/-- C7: on a 200 response (with readable body), `fetchWithCache` succeeds
with exactly the fetched bytes for every outcome of the best-effort cache
persist — `w` ranges over all worlds, including those where the cache
directory is unavailable, directory creation fails, or the file write
fails. -/
theorem fetchWithCache_200_ignores_write_failure
    (w : World) (name : String) (body : Bytes)
    (hstale : staleOrAbsent w (name ++ ".yaml") = true)
    (hr : remoteOf w ("games/" ++ name) = .response 200 body)
    (hbody : w.bodyReadOk = true) :
    (fetchWithCache w name).result = .ok body := by
  rw [fetchWithCache_stale w name hstale]
  unfold fetchRemote
  rw [hr]
  simp [hbody]

/-- Witness for C7: the cache write fails (`writeOk = false`) and the
fetched bytes are still returned. -/
theorem fetchWithCache_200_ignores_write_failure_witness :
    (fetchWithCache sampleWriteFailWorld "g").result = .ok [5, 6] :=
  fetchWithCache_200_ignores_write_failure sampleWriteFailWorld "g" [5, 6]
    (by decide) (by decide) rfl

/-- On a 200 response with all cache-persist steps succeeding, the world
gains a cache file for the key holding the fetched bytes, stamped `now`. -/
theorem fetchWithCache_200_writes_cache
    (w : World) (name : String) (body : Bytes)
    (hstale : staleOrAbsent w (name ++ ".yaml") = true)
    (hr : remoteOf w ("games/" ++ name) = .response 200 body)
    (hbody : w.bodyReadOk = true) (hdir : w.cacheDirOk = true)
    (hmk : w.mkdirOk = true) (hw : w.writeOk = true) :
    fetchWithCache w name =
      { result := .ok body,
        world := { w with cacheFiles := (name ++ ".yaml", ⟨body, w.now⟩) :: w.cacheFiles },
        netCalls := 1, cacheReads := 0 } := by
  rw [fetchWithCache_stale w name hstale]
  unfold fetchRemote
  rw [hr]
  simp [hbody, cacheWriteStep, hdir, hmk, hw]

/-- C8: after a successful fetch persists `body` to the cache file for the
key, re-running `fetchWithCache` at any later time still inside the
freshness window returns byte-identical content from the cache, with no
network call. -/
theorem fetchWithCache_roundtrip
    (w : World) (name : String) (body : Bytes) (later : Nat)
    (hstale : staleOrAbsent w (name ++ ".yaml") = true)
    (hr : remoteOf w ("games/" ++ name) = .response 200 body)
    (hbody : w.bodyReadOk = true) (hdir : w.cacheDirOk = true)
    (hmk : w.mkdirOk = true) (hw : w.writeOk = true)
    (hfresh : later - w.now < cacheTTL) :
    (fetchWithCache { (fetchWithCache w name).world with now := later } name).result
        = .ok body ∧
    (fetchWithCache { (fetchWithCache w name).world with now := later } name).netCalls
        = 0 := by
  rw [fetchWithCache_200_writes_cache w name body hstale hr hbody hdir hmk hw]
  unfold fetchWithCache
  simp [lookupA, hfresh]

/-- Witness for C8: bytes `[5, 6]` fetched at time 100 are read back
unchanged at time 200. -/
theorem fetchWithCache_roundtrip_witness :
    (fetchWithCache { (fetchWithCache sampleWriteOkWorld "g").world with now := 200 }
        "g").result = .ok [5, 6] ∧
    (fetchWithCache { (fetchWithCache sampleWriteOkWorld "g").world with now := 200 }
        "g").netCalls = 0 :=
  fetchWithCache_roundtrip sampleWriteOkWorld "g" [5, 6] 200
    rfl (by decide) rfl rfl rfl rfl (by decide)

/-- `GetGame` on a memo hit returns the stored game and performs no I/O. -/
theorem GetGame_hit (parse : Bytes → Option Game) (gc : GameCache) (w : World)
    (name : String) (game : Game) (hm : lookupA gc name = some game) :
    GetGame parse gc w name =
      { result := .ok game, gameCache := gc, world := w, netCalls := 0, cacheReads := 0 } := by
  unfold GetGame
  rw [hm]

/-- `GetGame` on a memo miss whose fetch fails wraps the fetch error. -/
theorem GetGame_miss_fetch_error (parse : Bytes → Option Game) (gc : GameCache)
    (w : World) (name : String) (e : FetchError) (w' : World) (nc cr : Nat)
    (hm : lookupA gc name = none)
    (hf : fetchWithCache w name = ⟨.error e, w', nc, cr⟩) :
    GetGame parse gc w name =
      { result := .error (.notFoundInRegistry name e), gameCache := gc,
        world := w', netCalls := nc, cacheReads := cr } := by
  unfold GetGame
  rw [hm, hf]

/-- `GetGame` on a memo miss whose fetched bytes fail to parse. -/
theorem GetGame_miss_parse_none (parse : Bytes → Option Game) (gc : GameCache)
    (w : World) (name : String) (data : Bytes) (w' : World) (nc cr : Nat)
    (hm : lookupA gc name = none)
    (hf : fetchWithCache w name = ⟨.ok data, w', nc, cr⟩)
    (hp : parse data = none) :
    GetGame parse gc w name =
      { result := .error .parseFailed, gameCache := gc,
        world := w', netCalls := nc, cacheReads := cr } := by
  unfold GetGame
  rw [hm, hf]
  simp [hp]

/-- `GetGame` on a memo miss whose fetched bytes parse: memoize and
return. -/
theorem GetGame_miss_parse_some (parse : Bytes → Option Game) (gc : GameCache)
    (w : World) (name : String) (data : Bytes) (game : Game) (w' : World) (nc cr : Nat)
    (hm : lookupA gc name = none)
    (hf : fetchWithCache w name = ⟨.ok data, w', nc, cr⟩)
    (hp : parse data = some game) :
    GetGame parse gc w name =
      { result := .ok game, gameCache := (name, game) :: gc,
        world := w', netCalls := nc, cacheReads := cr } := by
  unfold GetGame
  rw [hm, hf]
  simp [hp]

/-- A successful `GetGame` leaves its game memoized in the returned map. -/
theorem getGame_success_memoizes
    (parse : Bytes → Option Game) (gc : GameCache) (w : World)
    (name : String) (g : Game)
    (h : (GetGame parse gc w name).result = .ok g) :
    lookupA (GetGame parse gc w name).gameCache name = some g := by
  cases hm : lookupA gc name with
  | some game =>
    rw [GetGame_hit parse gc w name game hm] at h ⊢
    simp at h ⊢
    rw [hm, h]
  | none =>
    rcases hf : fetchWithCache w name with ⟨res, w', nc, cr⟩
    cases res with
    | error e =>
      rw [GetGame_miss_fetch_error parse gc w name e w' nc cr hm hf] at h
      simp at h
    | ok data =>
      cases hp : parse data with
      | none =>
        rw [GetGame_miss_parse_none parse gc w name data w' nc cr hm hf hp] at h
        simp at h
      | some game =>
        rw [GetGame_miss_parse_some parse gc w name data game w' nc cr hm hf hp] at h ⊢
        simp at h
        simp [lookupA, h]

/-- C5: once `GetGame` has succeeded with `g`, every later call for the
same name against the resulting memo map returns exactly `g` with zero
network calls, zero cache-file reads, and an unchanged world — whatever the
remote or the on-disk cache look like by then (`w'` is arbitrary). -/
theorem getGame_memoized_stable
    (parse : Bytes → Option Game) (gc : GameCache) (w : World)
    (name : String) (g : Game)
    (h : (GetGame parse gc w name).result = .ok g) :
    ∀ w' : World,
      GetGame parse (GetGame parse gc w name).gameCache w' name =
        { result := .ok g, gameCache := (GetGame parse gc w name).gameCache,
          world := w', netCalls := 0, cacheReads := 0 } := by
  intro w'
  exact GetGame_hit parse (GetGame parse gc w name).gameCache w' name g
    (getGame_success_memoizes parse gc w name g h)

/-- Witness for C5: after resolving `g` from the remote, a second call in a
world with a changed (unreachable) remote and a cleared disk cache still
returns the same definition with no I/O. -/
theorem getGame_memoized_stable_witness :
    GetGame sampleParse (GetGame sampleParse [] sampleWriteOkWorld "g").gameCache
        deadWorld "g" =
      { result := .ok sampleGame,
        gameCache := (GetGame sampleParse [] sampleWriteOkWorld "g").gameCache,
        world := deadWorld, netCalls := 0, cacheReads := 0 } :=
  getGame_memoized_stable sampleParse [] sampleWriteOkWorld "g" sampleGame
    (by decide) deadWorld

/-- The games collected by the listing loop are exactly the spec-side
`resolvedGames`. -/
theorem resolveLoop_games_eq_resolvedGames (parse : Bytes → Option Game) :
    ∀ (names : List String) (gc : GameCache) (w : World),
      (resolveLoop parse gc w names).1 = resolvedGames parse gc w names := by
  intro names
  induction names with
  | nil => intro gc w; rfl
  | cons n rest ih =>
    intro gc w
    unfold resolveLoop resolvedGames
    generalize GetGame parse gc w n = o
    obtain ⟨res, gc', w', nc, cr⟩ := o
    cases res <;> simp [ih]

/-- C6: whenever the index fetch succeeds, `ListGames` succeeds and returns
exactly the definitions of the index names whose individual resolution
succeeds (failures are skipped); in particular, for an index `[a, b, c]`
where `a` and `c` resolve and `b` fails, the result is exactly the two
definitions for `a` and `c`, in order. -/
theorem listGames_returns_exactly_successes
    (codec : IndexCodec) (parse : Bytes → Option Game) (gc : GameCache)
    (w : World) (names : List String)
    (hidx : (fetchGameIndex codec w).result = .ok names) :
    (ListGames codec parse gc w).result =
      .ok (resolvedGames parse gc (fetchGameIndex codec w).world names) ∧
    (∀ (a b c : String) (ga gcc : Game) (e : GameError) (o₁ o₂ o₃ : GameOut),
      names = [a, b, c] →
      GetGame parse gc (fetchGameIndex codec w).world a = o₁ →
      o₁.result = .ok ga →
      GetGame parse o₁.gameCache o₁.world b = o₂ →
      o₂.result = .error e →
      GetGame parse o₂.gameCache o₂.world c = o₃ →
      o₃.result = .ok gcc →
      (ListGames codec parse gc w).result = .ok [ga, gcc]) := by
  have hmain : (ListGames codec parse gc w).result =
      .ok (resolvedGames parse gc (fetchGameIndex codec w).world names) := by
    rcases hio : fetchGameIndex codec w with ⟨res, w', nc⟩
    rw [hio] at hidx
    simp only at hidx
    subst hidx
    unfold ListGames
    rw [hio]
    simp [resolveLoop_games_eq_resolvedGames]
  refine ⟨hmain, ?_⟩
  intro a b c ga gcc e o₁ o₂ o₃ hn h₁ h₁r h₂ h₂r h₃ h₃r
  subst hn
  rw [hmain]
  obtain ⟨r₁, gc₁, w₁, nc₁, cr₁⟩ := o₁
  obtain ⟨r₂, gc₂, w₂, nc₂, cr₂⟩ := o₂
  obtain ⟨r₃, gc₃, w₃, nc₃, cr₃⟩ := o₃
  simp only at h₁r h₂r h₃r h₂ h₃
  subst h₁r
  subst h₂r
  subst h₃r
  simp [resolvedGames, h₁, h₂, h₃]

/-- Witness for C6: the cached index is `["a", "b", "c"]`, `a` and `c`
resolve from the remote, `b` is unreachable with no cache; the listing is
exactly the two resolved definitions. -/
theorem listGames_returns_exactly_successes_witness :
    (ListGames sampleIndexCodec sampleParse [] sampleListWorld).result =
      .ok [sampleGame, sampleGame] :=
  (listGames_returns_exactly_successes sampleIndexCodec sampleParse []
      sampleListWorld ["a", "b", "c"] (by decide)).2
    "a" "b" "c" sampleGame sampleGame
    (.notFoundInRegistry "b" .transport) _ _ _
    rfl rfl (by decide) rfl (by decide) rfl (by decide)

/-- A fresh cached index is served only when non-empty. -/
theorem freshIndexHit_ne_nil (codec : IndexCodec) (w : World) (index : List String)
    (h : freshIndexHit codec w = some index) : index ≠ [] := by
  unfold freshIndexHit at h
  repeat' split at h
  all_goals simp_all
  intro hnil
  simp_all

/-- The stale-cache fallback read of the index is served only when
non-empty. -/
theorem staleIndexOf_ne_nil (codec : IndexCodec) (entry : Option CacheEntry)
    (index : List String) (h : staleIndexOf codec entry = some index) :
    index ≠ [] := by
  unfold staleIndexOf at h
  repeat' split at h
  all_goals simp_all
  intro hnil
  simp_all

/-- When the fresh-cache branch does not serve, `fetchGameIndex` issues
exactly one network request. -/
theorem fetchGameIndex_miss_netCalls (codec : IndexCodec) (w : World)
    (hfresh : freshIndexHit codec w = none) :
    (fetchGameIndex codec w).netCalls = 1 := by
  unfold fetchGameIndex
  rw [hfresh]
  cases hr : remoteOf w "index.yaml" with
  | transportError =>
    cases hs : staleIndexOf codec (lookupA w.cacheFiles "index.json") <;> simp [hs]
  | response s b =>
    by_cases h200 : s = 200
    · subst h200
      simp only [ne_eq, not_true_eq_false, if_false]
      by_cases hbr : w.bodyReadOk
      · simp only [hbr, Bool.not_true, Bool.false_eq_true, if_false]
        cases hy : codec.yamlDec b <;> simp [hy]
      · simp [hbr]
    · simp only [ne_eq, h200, not_false_eq_true, if_true]
      cases hs : staleIndexOf codec (lookupA w.cacheFiles "index.json") <;> simp [hs]

/-- C10: the index cache never serves a malformed or empty index. First,
even a fresh cached index file is bypassed — a network request is issued —
when its contents fail to JSON-decode or decode to the empty list. Second,
an empty index list can only ever come from a 200 remote response whose
body decodes to the empty list, never from any cache branch. -/
theorem fetchGameIndex_never_serves_empty_cache (codec : IndexCodec) (w : World) :
    (∀ e, lookupA w.cacheFiles "index.json" = some e →
      w.now - e.modTime < cacheTTL →
      (codec.jsonDec e.data = none ∨ codec.jsonDec e.data = some []) →
      (fetchGameIndex codec w).netCalls = 1) ∧
    (∀ index, (fetchGameIndex codec w).result = .ok index → index = [] →
      ∃ b, remoteOf w "index.yaml" = .response 200 b ∧ w.bodyReadOk = true ∧
        codec.yamlDec b = some []) := by
  constructor
  · intro e hc hf hbad
    apply fetchGameIndex_miss_netCalls
    unfold freshIndexHit
    rcases hbad with hbad | hbad <;> simp [hc, hf, hbad]
  · intro index hres hnil
    subst hnil
    unfold fetchGameIndex at hres
    cases hfh : freshIndexHit codec w with
    | some idx =>
      rw [hfh] at hres
      simp at hres
      exact absurd hres (freshIndexHit_ne_nil codec w idx hfh)
    | none =>
      rw [hfh] at hres
      cases hr : remoteOf w "index.yaml" with
      | transportError =>
        rw [hr] at hres
        cases hs : staleIndexOf codec (lookupA w.cacheFiles "index.json") with
        | some idx =>
          rw [hs] at hres
          simp at hres
          exact absurd hres (staleIndexOf_ne_nil codec _ idx hs)
        | none => rw [hs] at hres; simp at hres
      | response s b =>
        rw [hr] at hres
        by_cases h200 : s = 200
        · subst h200
          simp only [ne_eq, not_true_eq_false, if_false] at hres
          by_cases hbr : w.bodyReadOk
          · simp only [hbr, Bool.not_true, Bool.false_eq_true, if_false] at hres
            cases hy : codec.yamlDec b with
            | none => rw [hy] at hres; simp at hres
            | some games =>
              rw [hy] at hres
              simp at hres
              exact ⟨b, rfl, hbr, by simp [hy, hres]⟩
          · simp [hbr] at hres
        · simp only [ne_eq, h200, not_false_eq_true, if_true] at hres
          cases hs : staleIndexOf codec (lookupA w.cacheFiles "index.json") with
          | some idx =>
            rw [hs] at hres
            simp at hres
            exact absurd hres (staleIndexOf_ne_nil codec _ idx hs)
          | none => rw [hs] at hres; simp at hres

/-- Witness for C10: a fresh cached index decoding to the empty list forces
a network request, and an empty index produced by the remote is traced back
to its 200 response. -/
theorem fetchGameIndex_never_serves_empty_cache_witness :
    (fetchGameIndex emptyIndexCodec freshEmptyIndexWorld).netCalls = 1 ∧
    ∃ b, remoteOf emptyRemoteIndexWorld "index.yaml" = .response 200 b ∧
      emptyRemoteIndexWorld.bodyReadOk = true ∧
      emptyIndexCodec.yamlDec b = some [] :=
  ⟨(fetchGameIndex_never_serves_empty_cache emptyIndexCodec freshEmptyIndexWorld).1
      ⟨[9], 50⟩ rfl (by decide) (.inr rfl),
    (fetchGameIndex_never_serves_empty_cache emptyIndexCodec emptyRemoteIndexWorld).2
      [] (by decide) rfl⟩

/-- C2 counterexample: a 404 for the index resource does NOT propagate a
NotFound condition when a usable stale cached index exists. In
`staleIndex404World` the cached index is stale (so a network request is
issued, `netCalls = 1`) and the remote answers 404, yet `fetchGameIndex`
returns the cached index `["a"]` instead of an error: unlike
`fetchWithCache`, `fetchGameIndex` has no special 404 case. -/
theorem fetchGameIndex_404_serves_stale_cache_counterexample :
    (fetchGameIndex staleIndexCodec staleIndex404World).result = .ok ["a"] ∧
    (fetchGameIndex staleIndexCodec staleIndex404World).netCalls = 1 := by
  constructor <;> rfl

/-- C2 amended: `fetchGameIndex` obtains the index by a fetch-with-cache
procedure that differs from `fetchWithCache` on 404: every non-200 status —
404 included — falls back to the cached index whenever the cached file
exists, is non-empty, JSON-decodes, and decodes to a non-empty list, and
only otherwise propagates an error naming the status. -/
theorem fetchGameIndex_non200_falls_back
    (codec : IndexCodec) (w : World) (s : Nat) (b : Bytes)
    (hfresh : freshIndexHit codec w = none)
    (hr : remoteOf w "index.yaml" = .response s b)
    (hs : s ≠ 200) :
    (fetchGameIndex codec w).result =
      match staleIndexOf codec (lookupA w.cacheFiles "index.json") with
      | some index => .ok index
      | none => .error (.badStatus s) := by
  unfold fetchGameIndex
  rw [hfresh, hr]
  simp only [ne_eq, hs, not_false_eq_true, if_true]
  cases hst : staleIndexOf codec (lookupA w.cacheFiles "index.json") <;> simp [hst]

/-- Witness for the amended C2: at `staleIndex404World` the 404 is answered
from the stale cached index. -/
theorem fetchGameIndex_non200_falls_back_witness :
    (fetchGameIndex staleIndexCodec staleIndex404World).result =
      match staleIndexOf staleIndexCodec
          (lookupA staleIndex404World.cacheFiles "index.json") with
      | some index => .ok index
      | none => .error (.badStatus 404) :=
  fetchGameIndex_non200_falls_back staleIndexCodec staleIndex404World 404 []
    rfl rfl (by decide)

/-- An empty name, an over-long name, or a name with a character outside
`[a-zA-Z0-9_-]` is rejected by `validateGameName`. -/
theorem validateGameName_rejects (s : String)
    (h : s = "" ∨ 63 < s.length ∨ ¬s.data.all isGameNameChar = true) :
    ∃ msg, validateGameName s = .error msg := by
  unfold validateGameName
  by_cases h1 : s = ""
  · simp [h1]
  · rw [if_neg h1]
    by_cases h2 : s.length > 63
    · simp [h2]
    · rw [if_neg h2]
      by_cases h3 : s.data.all isGameNameChar = true
      · rcases h with h | h | h
        · exact absurd h h1
        · exact absurd h h2
        · exact absurd h3 h
      · simp [h3]

/-- A name `validateGameName` accepts is non-empty, at most 63 characters,
and drawn entirely from `[a-zA-Z0-9_-]`. -/
theorem validateGameName_ok_shape (s : String)
    (h : validateGameName s = .ok ()) :
    s ≠ "" ∧ s.length ≤ 63 ∧ s.data.all isGameNameChar = true := by
  unfold validateGameName at h
  by_cases h1 : s = ""
  · simp [h1] at h
  · rw [if_neg h1] at h
    by_cases h2 : s.length > 63
    · simp [h2] at h
    · rw [if_neg h2] at h
      by_cases h3 : s.data.all isGameNameChar = true
      · exact ⟨h1, Nat.le_of_not_lt h2, h3⟩
      · simp [h3] at h

/-- A character from `[a-zA-Z0-9_-]` is neither a path separator nor a
dot. -/
theorem isGameNameChar_safe (c : Char) (h : isGameNameChar c = true) :
    c ≠ '/' ∧ c ≠ '.' := by
  constructor <;> rintro rfl <;> revert h <;> decide

/-- After validation succeeds, every path in the `CopyDefaultConfig` step
trace is the config directory or one of the two config files under it. -/
theorem copySteps_under_serverDir (s image : String) (env : CopyEnv)
    (hvalid : validateGameName s = .ok ()) :
    ∀ st ∈ (CopyDefaultConfig s image env).2, stepUnderServerDir s st := by
  intro st hst
  simp only [CopyDefaultConfig, hvalid] at hst
  split_ifs at hst <;>
      simp only [List.mem_append, List.mem_cons, List.not_mem_nil,
        or_false] at hst <;>
      (repeat' rcases hst with hst | rfl)
  all_goals simp [stepUnderServerDir]

/-- C9: `CopyDefaultConfig` rejects, with an `invalid game name` error and
an empty step trace (no directory created, no container engine contacted),
every name that is empty, longer than 63 characters, or containing a
character outside `[a-zA-Z0-9_-]`; and every name validation accepts is
made of safe characters only (no `/`, no `.` — hence no path separator and
no traversal sequence), so every path in the step trace stays under
`./<name>-server`. -/
theorem copyDefaultConfig_validates_name_first (s image : String) (env : CopyEnv) :
    ((s = "" ∨ 63 < s.length ∨ ¬s.data.all isGameNameChar = true) →
      (CopyDefaultConfig s image env).2 = [] ∧
      ∃ msg, (CopyDefaultConfig s image env).1 =
        .error ("invalid game name: " ++ msg)) ∧
    (validateGameName s = .ok () →
      s ≠ "" ∧ s.length ≤ 63 ∧ s.data.all isGameNameChar = true ∧
      (∀ c ∈ s.data, c ≠ '/' ∧ c ≠ '.') ∧
      ∀ st ∈ (CopyDefaultConfig s image env).2, stepUnderServerDir s st) := by
  constructor
  · intro h
    obtain ⟨msg, hv⟩ := validateGameName_rejects s h
    unfold CopyDefaultConfig
    rw [hv]
    exact ⟨rfl, msg, rfl⟩
  · intro hok
    obtain ⟨h1, h2, h3⟩ := validateGameName_ok_shape s hok
    refine ⟨h1, h2, h3, ?_, copySteps_under_serverDir s image env hok⟩
    intro c hc
    refine isGameNameChar_safe c ?_
    rw [List.all_eq_true] at h3
    exact h3 c hc

/-- Witness for C9: `bad name` (contains a space) is rejected with an empty
trace, while `valheim` passes validation, is made of safe characters, and
every traced path sits under `./valheim-server`. -/
theorem copyDefaultConfig_validates_name_first_witness :
    ((CopyDefaultConfig "bad name" "img" sampleCopyEnv).2 = [] ∧
      ∃ msg, (CopyDefaultConfig "bad name" "img" sampleCopyEnv).1 =
        .error ("invalid game name: " ++ msg)) ∧
    ("valheim" ≠ "" ∧ ("valheim" : String).length ≤ 63 ∧
      ("valheim" : String).data.all isGameNameChar = true ∧
      (∀ c ∈ ("valheim" : String).data, c ≠ '/' ∧ c ≠ '.') ∧
      ∀ st ∈ (CopyDefaultConfig "valheim" "img" sampleCopyEnv).2,
        stepUnderServerDir "valheim" st) :=
  ⟨(copyDefaultConfig_validates_name_first "bad name" "img" sampleCopyEnv).1
      (.inr (.inr (by decide))),
    (copyDefaultConfig_validates_name_first "valheim" "img" sampleCopyEnv).2
      (by decide)⟩

end Registry
